import Mathlib

set_option maxHeartbeats 1000000

/-!
Verification development for the gofile-link posting bot
(`bot.py` and `goxplorer.py`).

Strings are modelled as `List Char` (Python `str` is a sequence of code
points).  Network and clock effects are modelled as explicit oracle
parameters: a probe outcome is a `Probe` record, a network fetch is a
function returning `Option` (with `none` for a raised exception), and the
monotonic-clock deadline test is a function `Nat → Bool` indexed by the
number of deadline checks performed so far (time only moves forward, so a
scenario where the deadline has already elapsed at the start is the oracle
that is constantly `true`).
-/

namespace YamuchaBot

/-- The whitespace characters stripped by Python `str.strip()` — the code
points for which `str.isspace()` holds (CPython's whitespace table): ASCII
whitespace U+0009–U+000D and U+0020, the information separators
U+001C–U+001F, NEL U+0085, NBSP U+00A0, and the Unicode space separators
U+1680, U+2000–U+200A, U+2028, U+2029, U+202F, U+205F, U+3000. -/
def isPySpace (c : Char) : Bool :=
  decide ((0x9 ≤ c.toNat ∧ c.toNat ≤ 0xd) ∨ (0x1c ≤ c.toNat ∧ c.toNat ≤ 0x1f) ∨
    c.toNat = 0x20 ∨ c.toNat = 0x85 ∨ c.toNat = 0xa0 ∨ c.toNat = 0x1680 ∨
    (0x2000 ≤ c.toNat ∧ c.toNat ≤ 0x200a) ∨ c.toNat = 0x2028 ∨
    c.toNat = 0x2029 ∨ c.toNat = 0x202f ∨ c.toNat = 0x205f ∨ c.toNat = 0x3000)

/-- Python `u.strip()`: drop leading and trailing whitespace. -/
def pyStrip (l : List Char) : List Char :=
  ((l.dropWhile isPySpace).reverse.dropWhile isPySpace).reverse

/-- Case-insensitive prefix test, modelling the anchored regex match
`re.sub(r"^http://", ..., flags=re.I)` from `normalize_url`. -/
def ciPrefix : List Char → List Char → Bool
  | [], _ => true
  | _ :: _, [] => false
  | p :: ps, c :: cs => (p.toLower == c.toLower) && ciPrefix ps cs

def httpPat : List Char := "http://".data

def httpsPre : List Char := "https://".data

/-- The scheme-upgrade step of `normalize_url`
(`re.sub(r"^http://", "https://", u, flags=re.I)`). -/
def upgradeHttp (l : List Char) : List Char :=
  if ciPrefix httpPat l then httpsPre ++ l.drop 7 else l

def slashChar (c : Char) : Bool := c == '/'

/-- Python `u.rstrip("/")`: drop every trailing `'/'`. -/
def rstripSlash (l : List Char) : List Char :=
  (l.reverse.dropWhile slashChar).reverse

/-- `bot.normalize_url`: falsy (empty) input is passed through unchanged,
otherwise strip whitespace, upgrade `http://` to `https://`, and
right-strip `'/'` characters. -/
def normalize_url (l : List Char) : List Char :=
  if l.isEmpty then l else rstripSlash (upgradeHttp (pyStrip l))

/-- `normalize_url` lifted to `Option`, modelling the Python `None`
passthrough of the `if not u: return u` guard. -/
def normalize_url_opt : Option (List Char) → Option (List Char)
  | none => none
  | some l => some (normalize_url l)

/-- Modelled from the spec claim C8's words: strip exactly ONE trailing
path separator (this is what the spec asserts `normalize_url` does). -/
def stripOneSlash (l : List Char) : List Char :=
  if l.getLast? = some '/' then l.dropLast else l

/-- The normalizer the spec claim C8 describes: trim, upgrade the scheme,
then strip a single trailing separator. -/
def normalize_spec_one (l : List Char) : List Char :=
  if l.isEmpty then l else stripOneSlash (upgradeHttp (pyStrip l))

/-- Strip ALL trailing `'/'` characters, written by last-element recursion
(fuel = list length) so it can be compared against the reverse/`dropWhile`
formulation used by the code model. -/
def stripAllSlashFuel : Nat → List Char → List Char
  | 0, l => l
  | n + 1, l => if l.getLast? = some '/' then stripAllSlashFuel n l.dropLast else l

def stripAllSlash (l : List Char) : List Char :=
  stripAllSlashFuel l.length l

/-- Case folding used by `is_gofile_alive` (`text.lower()`). -/
def pyLower (l : List Char) : List Char := l.map Char.toLower

/-- Python substring test `pat in s`. -/
def subIn (pat : List Char) : List Char → Bool
  | [] => pat.isEmpty
  | c :: rest => pat.isPrefixOf (c :: rest) || subIn pat rest

/-- `goxplorer._DEATH_MARKERS`: the fixed confirmed-dead phrases. -/
def DEATH_MARKERS : List (List Char) :=
  ["This content does not exist".data,
   "The content you are looking for could not be found".data,
   "has been automatically removed".data,
   "has been deleted by the owner".data]

/-- Outcome of probing one URL: `headStatus` is the HEAD status code
(`none` when the HEAD request raised, e.g. a timeout), `getBody` is the
first 4 KB of the GET body (`none` when the GET raised). -/
structure Probe where
  headStatus : Option Nat
  getBody : Option (List Char)
deriving DecidableEq

/-- Case-insensitive death-phrase scan of the body prefix
(`dm.lower() in text.lower()` over `_DEATH_MARKERS`). -/
def body_marks_dead (body : List Char) : Bool :=
  DEATH_MARKERS.any (fun dm => subIn (pyLower dm) (pyLower body))

/-- `goxplorer.fix_scheme`: repair a mangled `htps://` scheme. -/
def fix_scheme (u : List Char) : List Char :=
  if "htps://".data.isPrefixOf u then "https://".data ++ u.drop 7 else u

/-- The GET half of `is_gofile_alive`: a raised GET is "unknown" (alive),
otherwise dead exactly when a death marker occurs in the body prefix. -/
def gofileGetVerdict : Option (List Char) → Bool
  | some body => !(body_marks_dead body)
  | none => true

/-- `goxplorer.is_gofile_alive`: HEAD status 404/410/451 is dead; any other
HEAD outcome falls through to the GET body check; everything ambiguous is
alive.  `net` maps the (scheme-fixed) URL to its probe outcome. -/
def is_gofile_alive (net : List Char → Probe) (url : List Char) : Bool :=
  let p := net (fix_scheme url)
  match p.headStatus with
  | some c => if c == 404 || c == 410 || c == 451 then false else gofileGetVerdict p.getBody
  | none => gofileGetVerdict p.getBody

/-- The loop of `bot.is_alive_retry`: `retries + 1` attempts, returning on
the first alive verdict, `False` when the attempts run out.  The second
component counts probes actually performed (the fixed 0.5 s sleep between
attempts has no observable effect beyond ordering and is not modelled). -/
def retryLoop (probe : Nat → Bool) : Nat → Nat → Bool × Nat
  | 0, k => (false, k)
  | n + 1, k => if probe k then (true, k + 1) else retryLoop probe n (k + 1)

/-- `bot.is_alive_retry` with per-attempt probe outcomes. -/
def is_alive_retry (probe : Nat → Bool) (retries : Nat) : Bool × Nat :=
  retryLoop probe (retries + 1) 0

/-- The composite `is_alive_retry(n, retries=1)` call made by
`add_if_alive`, with a per-attempt network oracle. -/
def alive_retry_oracle (probe2 : List Char → Nat → Probe) (n : List Char) : Bool :=
  (is_alive_retry (fun i => is_gofile_alive (fun u => probe2 u i) n) 1).1

/-- One entry of `state["recent_urls_24h"]`; `ts = none` models a missing
or unparsable ISO timestamp (dropped by the purge). -/
structure RecentItem where
  url : List Char
  ts : Option Int
deriving DecidableEq

/-- The persisted `state.json` record (`bot._default_state` shape).
Timestamps and "now" are seconds as `Int`; dates are the ISO date strings
`now_jst.date().isoformat()` compared for equality. -/
structure BotState where
  posted_urls : List (List Char)
  last_post_date : Option (List Char)
  posts_today : Nat
  recent_urls_24h : List RecentItem
  line_seq : Nat
deriving DecidableEq

def DAILY_LIMIT : Nat := 3

/-- `bot.reset_if_new_day`: when the stored date differs from today's
date string, store today and zero the counter. -/
def reset_if_new_day (st : BotState) (today : List Char) : BotState :=
  if st.last_post_date = some today then st
  else { st with last_post_date := some today, posts_today := 0 }

/-- `bot.can_post_more_today`. -/
def can_post_more_today (st : BotState) : Bool :=
  decide (st.posts_today < DAILY_LIMIT)

/-- `bot.purge_recent_24h`: keep entries with a parseable timestamp not
older than `now − 24h` (86400 s). -/
def purge_recent_24h (st : BotState) (nowUtc : Int) : BotState :=
  { st with recent_urls_24h := st.recent_urls_24h.filter (fun it =>
      match it.ts with
      | some t => decide (nowUtc - 86400 ≤ t)
      | none => false) }

/-- `bot.build_seen_set_from_state`: normalized posted URLs plus
normalized recent-window URLs (a set; only membership matters). -/
def build_seen_set_from_state (st : BotState) : List (List Char) :=
  st.posted_urls.map normalize_url ++
    st.recent_urls_24h.map (fun it => normalize_url it.url)

/-- One iteration of the post-success bookkeeping loop
(`for u in preflight[:3]` in `bot.main`). -/
def commitOne (now : Int) (s : BotState) (u : List Char) : BotState :=
  { s with
    posted_urls := if u ∈ s.posted_urls then s.posted_urls else s.posted_urls ++ [u]
    recent_urls_24h := s.recent_urls_24h ++ [⟨u, some now⟩] }

/-- The state mutation performed by `bot.main` after a successful publish:
record `preflight[:3]`, bump the daily counter, advance `line_seq` by 3
(from the pre-commit `start_seq`). -/
def commit_success (st : BotState) (preflight : List (List Char)) (now : Int) : BotState :=
  let st' := (preflight.take 3).foldl (commitOne now) st
  { st' with posts_today := st'.posts_today + 1, line_seq := st.line_seq + 3 }

/-- The numbering loop of `bot.compose_fixed3_text`: line `i` of the batch
carries sequence number `start_seq + i` and the batch's `i`-th URL.  The
invisible salt character and trailing signature are presentation only and
are not modelled. -/
def composeLoop (seq : Nat) : List (List Char) → List (Nat × List Char)
  | [] => []
  | u :: us => (seq, u) :: composeLoop (seq + 1) us

/-- `bot.compose_fixed3_text` (numbering skeleton): takes
`min 3 (length urls)` URLs and numbers them from `start_seq`; also returns
the `take` count. -/
def compose_fixed3_lines (gofile_urls : List (List Char)) (start_seq : Nat) :
    List (Nat × List Char) × Nat :=
  let tk := min 3 gofile_urls.length
  let sel := gofile_urls.take tk
  (composeLoop start_seq sel, sel.length)

/-- Local state of the final preflight loop in `bot.main`
(`tested`, `preflight`, plus the index of the next hard-limit clock
check). -/
structure SelSt where
  tested : List (List Char)
  preflight : List (List Char)
  tick : Nat
deriving DecidableEq

/-- `bot.main.add_if_alive`: give up when the hard time limit is exceeded;
skip anything already tested, already seen, or already chosen; probe with
one retry; keep the normalized URL on an alive verdict. -/
def add_if_alive (expired : Nat → Bool) (aliveR : List Char → Bool)
    (already_seen : List (List Char)) (st : SelSt) (u : List Char) : SelSt :=
  if expired st.tick = true then { st with tick := st.tick + 1 }
  else if normalize_url u ∈ st.tested ∨ normalize_url u ∈ already_seen ∨
      normalize_url u ∈ st.preflight then
    { st with tick := st.tick + 1 }
  else if aliveR (normalize_url u) = true then
    { st with
      tick := st.tick + 1
      tested := normalize_url u :: st.tested
      preflight := st.preflight ++ [normalize_url u] }
  else
    { st with
      tick := st.tick + 1
      tested := normalize_url u :: st.tested }

/-- The candidate loop of `bot.main`: stop as soon as `target` URLs are
assembled, otherwise feed the next candidate to `add_if_alive`. -/
def selectLoop (expired : Nat → Bool) (aliveR : List Char → Bool)
    (already_seen : List (List Char)) (target : Nat) :
    List (List Char) → SelSt → SelSt
  | [], st => st
  | u :: us, st =>
    if target ≤ st.preflight.length then st
    else selectLoop expired aliveR already_seen target us
      (add_if_alive expired aliveR already_seen st u)

/-- One whole successful run on local date `d`: the rollover check at the
start of `bot.main` followed by the post-success commit. -/
def runCommitDay (s : BotState) (d : List Char) (b : List (List Char)) (n : Int) :
    BotState :=
  commit_success (reset_if_new_day s d) b n

/-- The state obtained by `bot.main` right after load + purge + rollover. -/
def loadedState (st0 : BotState) (today : List Char) (nowUtc : Int) : BotState :=
  reset_if_new_day (purge_recent_24h st0 nowUtc) today

/-- The preflight batch assembled by `bot.main` from the candidate list. -/
def runPreflight (st0 : BotState) (today : List Char) (nowUtc : Int)
    (cands : List (List Char)) (expired : Nat → Bool)
    (probe2 : List Char → Nat → Probe) : List (List Char) :=
  (selectLoop expired (alive_retry_oracle probe2)
    (build_seen_set_from_state (loadedState st0 today nowUtc)) 3 cands
    ⟨[], [], 0⟩).preflight

/-- Observable outcome of one `bot.main` invocation.  Constructors carrying
a `BotState` record what `save_state` wrote; `quotaSkip`, `budgetSkip` and
`publishFailed` write nothing (`publishFailed` carries the in-memory state
at the point the publish exception propagates). -/
inductive RunResult where
  | quotaSkip : RunResult
  | budgetSkip : RunResult
  | insufficientCandidates (saved : BotState) : RunResult
  | insufficientPreflight (saved : BotState) : RunResult
  | posted (saved : BotState) (batch : List (List Char)) : RunResult
  | publishFailed (mem : BotState) : RunResult
deriving DecidableEq

/-- `bot.main` as a function of its environment: `cands` is the list
returned by `collect_fresh_gofile_urls` (the collector is an imported
collaborator at this level and is modelled separately below),
`preBudgetExpired` is the hard-limit check before collection, `expired`
the per-candidate hard-limit checks, `probe2` the per-attempt probe
outcomes, and `publishOk` whether the publish call returns or raises. -/
def mainRun (st0 : BotState) (today : List Char) (nowUtc : Int)
    (preBudgetExpired : Bool) (cands : List (List Char))
    (expired : Nat → Bool) (probe2 : List Char → Nat → Probe)
    (publishOk : Bool) : RunResult :=
  if can_post_more_today (loadedState st0 today nowUtc) = false then
    RunResult.quotaSkip
  else if preBudgetExpired = true then RunResult.budgetSkip
  else if cands.length < 3 then
    RunResult.insufficientCandidates (loadedState st0 today nowUtc)
  else if (runPreflight st0 today nowUtc cands expired probe2).length < 3 then
    RunResult.insufficientPreflight (loadedState st0 today nowUtc)
  else if publishOk = true then
    RunResult.posted
      (commit_success (loadedState st0 today nowUtc)
        (runPreflight st0 today nowUtc cands expired probe2) nowUtc)
      (runPreflight st0 today nowUtc cands expired probe2)
  else RunResult.publishFailed (loadedState st0 today nowUtc)

/-!
## The multi-strategy collector (`goxplorer.py`)

Strategies are embedded with a request log (`List NetReq`): every
`scraper.get` or Playwright page load the code would issue appends one
entry.  Pure-parsing collaborators (`_extract_locs_from_xml`,
`_extract_gofile_from_html`, `_extract_article_links_from_list`) are
oracle parameters — the claims under study quantify over their outputs.
`dl : Nat → Bool` is the `_deadline_passed` oracle, indexed by the number
of deadline checks made so far; `k` threads that index.
-/

/-- One network request a strategy issues. -/
inductive NetReq where
  | get (url : List Char) : NetReq
  | pageLoad (url : List Char) : NetReq
deriving DecidableEq

def BASE_ORIGIN : List Char := "https://gofilelab.com".data

def SITEMAP_INDEX : List Char := "https://gofilelab.com/sitemap_index.xml".data

def SITEMAP_ALT : List Char := "https://gofilelab.com/sitemap.xml".data

def wpApiUrl (p : Nat) : List Char :=
  "https://gofilelab.com/wp-json/wp/v2/posts?page=".data ++ (Nat.repr p).data ++
    "&per_page=20&_fields=link,content.rendered".data

def listPageUrl (p : Nat) : List Char :=
  "https://gofilelab.com/newest?page=".data ++ (Nat.repr p).data

/-- First-seen-order deduplicating accumulation (`if u not in seen:
seen.add(u); all_urls.append(u)` — the mirror `seen` set always holds
exactly the members of the accumulated list). -/
def addUnseen (acc : List (List Char)) (l : List (List Char)) : List (List Char) :=
  l.foldl (fun a u => if u ∈ a then a else a ++ [u]) acc

/-- Inner entry loop of `_fetch_sitemap_post_urls`: keep locations under
the base origin, stop once `collected` reaches the cap (checked after each
append, mirroring the source). -/
def sitemapEntryLoop (cap : Nat) : List (List Char) → List (List Char) → Nat →
    List (List Char) × Nat
  | [], urls, c => (urls, c)
  | u :: rest, urls, c =>
    if BASE_ORIGIN.isPrefixOf u = false then sitemapEntryLoop cap rest urls c
    else if cap ≤ c + 1 then (urls ++ [u], c + 1)
    else sitemapEntryLoop cap rest (urls ++ [u]) (c + 1)

/-- Per-sitemap loop of `_fetch_sitemap_post_urls`: a deadline check per
sitemap, a `GET` per sitemap (failures skipped), cap-bounded collection. -/
def sitemapLoop (net : List Char → Option (List Char))
    (extractLocs : List Char → List (List Char)) (cap : Nat) (dl : Nat → Bool) :
    List (List Char) → List (List Char) → Nat → List NetReq → Nat →
    List (List Char) × List NetReq × Nat
  | [], urls, _c, log, k => (urls, log, k)
  | sm :: rest, urls, c, log, k =>
    if dl k = true then (urls, log, k + 1)
    else
      match net sm with
      | none => sitemapLoop net extractLocs cap dl rest urls c
          (log ++ [NetReq.get sm]) (k + 1)
      | some xml2 =>
        match sitemapEntryLoop cap
            (extractLocs xml2) urls c with
        | (urls', c') =>
          if cap ≤ c' then (urls', log ++ [NetReq.get sm], k + 1)
          else sitemapLoop net extractLocs cap dl rest urls' c'
            (log ++ [NetReq.get sm]) (k + 1)

/-- Body of `_fetch_sitemap_post_urls` once the index XML is in hand:
extract `<loc>` entries, keep the post/news sitemaps (falling back to all
of them), then run the capped per-sitemap loop. -/
def fetch_sitemap_body (net : List Char → Option (List Char))
    (extractLocs : List Char → List (List Char)) (max_pages : Nat)
    (dl : Nat → Bool) (xml : List Char) (log : List NetReq) (k : Nat) :
    List (List Char) × List NetReq × Nat :=
  let locs := extractLocs xml
  if locs.isEmpty then ([], log, k)
  else
    let f := locs.filter (fun u =>
      subIn "post".data u || subIn "news".data u || subIn "posts".data u)
    let post_sitemaps := if f.isEmpty then locs else f
    sitemapLoop net extractLocs (max_pages * 20) dl post_sitemaps [] 0 log k

/-- `goxplorer._fetch_sitemap_post_urls`: fetch the sitemap index (with
one fallback URL) BEFORE any deadline check, then walk the sub-sitemaps. -/
def fetch_sitemap_post_urls (net : List Char → Option (List Char))
    (extractLocs : List Char → List (List Char)) (max_pages : Nat)
    (dl : Nat → Bool) (k : Nat) : List (List Char) × List NetReq × Nat :=
  match net SITEMAP_INDEX with
  | some xml =>
    fetch_sitemap_body net extractLocs max_pages dl xml [NetReq.get SITEMAP_INDEX] k
  | none =>
    match net SITEMAP_ALT with
    | some xml =>
      fetch_sitemap_body net extractLocs max_pages dl xml
        [NetReq.get SITEMAP_INDEX, NetReq.get SITEMAP_ALT] k
    | none => ([], [NetReq.get SITEMAP_INDEX, NetReq.get SITEMAP_ALT], k)

/-- Post-detail loop of `_collect_via_sitemap`: deadline check per post,
fetch each post page, extract gofile links, dedupe first-seen. -/
def sitemapDetailLoop (net : List Char → Option (List Char))
    (extractGo : List Char → List (List Char)) (dl : Nat → Bool) :
    List (List Char) → List (List Char) → List NetReq → Nat →
    List (List Char) × List NetReq × Nat
  | [], acc, log, k => (acc, log, k)
  | pu :: rest, acc, log, k =>
    if dl k = true then (acc, log, k + 1)
    else
      match net pu with
      | none => sitemapDetailLoop net extractGo dl rest acc
          (log ++ [NetReq.get pu]) (k + 1)
      | some html => sitemapDetailLoop net extractGo dl rest
          (addUnseen acc (extractGo html)) (log ++ [NetReq.get pu]) (k + 1)

/-- `goxplorer._collect_via_sitemap` (structured-feed strategy). -/
def collect_via_sitemap (net : List Char → Option (List Char))
    (extractLocs extractGo : List Char → List (List Char))
    (num_pages : Nat) (dl : Nat → Bool) (k : Nat) :
    List (List Char) × List NetReq × Nat :=
  let r := fetch_sitemap_post_urls net extractLocs num_pages dl k
  if r.1.isEmpty then ([], r.2.1, r.2.2)
  else sitemapDetailLoop net extractGo dl r.1 [] r.2.1 r.2.2

/-- One page's worth of extraction in `_collect_via_wp_api`: each item's
rendered content HTML yields gofile links, deduped first-seen. -/
def wpPageBody (extractGo : List Char → List (List Char))
    (acc : List (List Char)) (arr : List (List Char)) : List (List Char) :=
  arr.foldl (fun a h => addUnseen a (extractGo h)) acc

/-- Page loop of `_collect_via_wp_api`: deadline check per page before the
request; a failed/non-JSON response or an empty page breaks the loop.
`netJson p` is the decoded item list of page `p` (each item reduced to its
`content.rendered` HTML), `none` for a raised/non-JSON response. -/
def wpLoop (netJson : Nat → Option (List (List Char)))
    (extractGo : List Char → List (List Char)) (dl : Nat → Bool) :
    Nat → Nat → List (List Char) → List NetReq → Nat →
    List (List Char) × List NetReq × Nat
  | 0, _p, acc, log, k => (acc, log, k)
  | fuel + 1, p, acc, log, k =>
    if dl k = true then (acc, log, k + 1)
    else
      match netJson p with
      | none => (acc, log ++ [NetReq.get (wpApiUrl p)], k + 1)
      | some arr =>
        if arr.isEmpty then (acc, log ++ [NetReq.get (wpApiUrl p)], k + 1)
        else wpLoop netJson extractGo dl fuel (p + 1)
          (wpPageBody extractGo acc arr) (log ++ [NetReq.get (wpApiUrl p)]) (k + 1)

/-- `goxplorer._collect_via_wp_api` (paged-API strategy). -/
def collect_via_wp_api (netJson : Nat → Option (List (List Char)))
    (extractGo : List Char → List (List Char)) (num_pages : Nat)
    (dl : Nat → Bool) (k : Nat) : List (List Char) × List NetReq × Nat :=
  wpLoop netJson extractGo dl num_pages 1 [] [] k

/-- Article-detail loop of `_collect_via_playwright`: deadline check per
article, skip already-visited articles, render the article page (a raised
render yields empty HTML), extract gofile links.  The multiple physical
page loads `_get_html_pw` performs for one article are logged as one
`pageLoad`. -/
def pwDetailLoop (pwNet : List Char → Option (List Char))
    (extractGo : List Char → List (List Char)) (dl : Nat → Bool) :
    List (List Char) → List (List Char) → List (List Char) → List NetReq → Nat →
    List (List Char) × List (List Char) × List NetReq × Nat
  | [], sp, acc, log, k => (sp, acc, log, k)
  | pu :: rest, sp, acc, log, k =>
    if dl k = true then (sp, acc, log, k + 1)
    else if pu ∈ sp then pwDetailLoop pwNet extractGo dl rest sp acc log (k + 1)
    else
      match pwNet pu with
      | none => pwDetailLoop pwNet extractGo dl rest (sp ++ [pu]) acc
          (log ++ [NetReq.pageLoad pu]) (k + 1)
      | some h =>
        pwDetailLoop pwNet extractGo dl rest (sp ++ [pu])
          (addUnseen acc (if h.isEmpty then [] else extractGo h))
          (log ++ [NetReq.pageLoad pu]) (k + 1)

/-- List-page loop of `_collect_via_playwright`: deadline check per list
page before loading it; a raised list render yields no article links but
the loop continues with the next page. -/
def pwPageLoop (pwList : Nat → Option (List Char))
    (articles : List Char → List (List Char))
    (pwNet : List Char → Option (List Char))
    (extractGo : List Char → List (List Char)) (dl : Nat → Bool) :
    Nat → Nat → List (List Char) → List (List Char) → List NetReq → Nat →
    List (List Char) × List NetReq × Nat
  | 0, _p, _sp, acc, log, k => (acc, log, k)
  | fuel + 1, p, sp, acc, log, k =>
    if dl k = true then (acc, log, k + 1)
    else
      let r := pwDetailLoop pwNet extractGo dl
        (match pwList p with
         | none => []
         | some h => if h.isEmpty then [] else articles h)
        sp acc (log ++ [NetReq.pageLoad (listPageUrl p)]) (k + 1)
      pwPageLoop pwList articles pwNet extractGo dl fuel (p + 1) r.1 r.2.1 r.2.2.1 r.2.2.2

/-- `goxplorer._collect_via_playwright` (rendered-crawl strategy). -/
def collect_via_playwright (pwList : Nat → Option (List Char))
    (articles : List Char → List (List Char))
    (pwNet : List Char → Option (List Char))
    (extractGo : List Char → List (List Char)) (num_pages : Nat)
    (dl : Nat → Bool) (k : Nat) : List (List Char) × List NetReq × Nat :=
  pwPageLoop pwList articles pwNet extractGo dl num_pages 1 [] [] [] k

/-- `goxplorer.fetch_listing_pages`: try the strategies in priority order,
the first one returning anything wins; request logs accumulate. -/
def fetch_listing_pages (net : List Char → Option (List Char))
    (extractLocs extractGo : List Char → List (List Char))
    (netJson : Nat → Option (List (List Char)))
    (pwList : Nat → Option (List Char)) (articles : List Char → List (List Char))
    (pwNet : List Char → Option (List Char))
    (num_pages : Nat) (dl : Nat → Bool) (k : Nat) :
    List (List Char) × List NetReq × Nat :=
  let r1 := collect_via_sitemap net extractLocs extractGo num_pages dl k
  if r1.1.isEmpty = false then r1
  else
    let r2 := collect_via_wp_api netJson extractGo num_pages dl r1.2.2
    if r2.1.isEmpty = false then (r2.1, r1.2.1 ++ r2.2.1, r2.2.2)
    else
      let r3 := collect_via_playwright pwList articles pwNet extractGo num_pages dl r2.2.2
      (r3.1, r1.2.1 ++ r2.2.1 ++ r3.2.1, r3.2.2)

/-- The quick-filter loop of `collect_fresh_gofile_urls`: deadline check
per candidate, dedupe against this run's picks, keep probe-alive URLs,
stop as soon as `want` is reached (checked after each append). -/
def collectFilterLoop (netProbe : List Char → Probe) (dl : Nat → Bool) (want : Nat) :
    List (List Char) → List (List Char) → Nat → List (List Char) × Nat
  | [], uniq, k => (uniq, k)
  | url :: rest, uniq, k =>
    if dl k = true then (uniq, k + 1)
    else if url ∈ uniq then collectFilterLoop netProbe dl want rest uniq (k + 1)
    else if is_gofile_alive netProbe url = true then
      if want ≤ (uniq ++ [url]).length then (uniq ++ [url], k + 1)
      else collectFilterLoop netProbe dl want rest (uniq ++ [url]) (k + 1)
    else collectFilterLoop netProbe dl want rest uniq (k + 1)

/-- `[u for u in raw if u not in already_seen][:60]`: the first 60 raw
results not in the caller's seen set (raw, un-normalized comparison). -/
def freshCandidates (raw : List (List Char)) (already_seen : List (List Char)) :
    List (List Char) :=
  (raw.filter (fun u => decide (u ∉ already_seen))).take 60

/-- `goxplorer.collect_fresh_gofile_urls`: gather raw results via
`fetch_listing_pages`, drop seen ones, cap at 60, then quick-probe in
order until `want` alive URLs are found. -/
def collect_fresh_gofile_urls (net : List Char → Option (List Char))
    (extractLocs extractGo : List Char → List (List Char))
    (netJson : Nat → Option (List (List Char)))
    (pwList : Nat → Option (List Char)) (articles : List Char → List (List Char))
    (pwNet : List Char → Option (List Char)) (netProbe : List Char → Probe)
    (already_seen : List (List Char)) (want num_pages : Nat) (dl : Nat → Bool) :
    List (List Char) :=
  let r := fetch_listing_pages net extractLocs extractGo netJson pwList articles pwNet
    num_pages dl 0
  (collectFilterLoop netProbe dl want (freshCandidates r.1 already_seen) [] r.2.2).1

/-! ## Frame lemmas on the persisted state -/

theorem foldCommit_frame (now : Int) :
    ∀ (l : List (List Char)) (s : BotState),
      (l.foldl (commitOne now) s).posts_today = s.posts_today ∧
      (l.foldl (commitOne now) s).last_post_date = s.last_post_date ∧
      (l.foldl (commitOne now) s).line_seq = s.line_seq := by
  intro l
  induction l with
  | nil => intro s; exact ⟨rfl, rfl, rfl⟩
  | cons u us ih =>
    intro s
    simpa [List.foldl_cons, commitOne] using ih (commitOne now s u)

theorem commit_success_fields (s : BotState) (b : List (List Char)) (n : Int) :
    (commit_success s b n).posts_today = s.posts_today + 1 ∧
    (commit_success s b n).last_post_date = s.last_post_date ∧
    (commit_success s b n).line_seq = s.line_seq + 3 := by
  obtain ⟨h1, h2, h3⟩ := foldCommit_frame n (b.take 3) s
  simp [commit_success, h1, h2]

theorem loadedState_fields (st0 : BotState) (d : List Char) (n : Int) :
    (loadedState st0 d n).posted_urls = st0.posted_urls ∧
    (loadedState st0 d n).line_seq = st0.line_seq ∧
    ((loadedState st0 d n).posts_today = st0.posts_today ∨
      (loadedState st0 d n).posts_today = 0) := by
  unfold loadedState reset_if_new_day purge_recent_24h
  split <;> simp

/-! ## Inversion of a successful `mainRun` -/

theorem mainRun_posted_inv (st0 : BotState) (today : List Char) (now : Int)
    (pre : Bool) (cands : List (List Char)) (expired : Nat → Bool)
    (probe2 : List Char → Nat → Probe) (pub : Bool) (s : BotState)
    (batch : List (List Char))
    (h : mainRun st0 today now pre cands expired probe2 pub =
      RunResult.posted s batch) :
    can_post_more_today (loadedState st0 today now) = true ∧
    pre = false ∧ ¬ cands.length < 3 ∧
    ¬ (runPreflight st0 today now cands expired probe2).length < 3 ∧
    pub = true ∧
    s = commit_success (loadedState st0 today now)
        (runPreflight st0 today now cands expired probe2) now ∧
    batch = runPreflight st0 today now cands expired probe2 := by
  unfold mainRun at h
  by_cases h1 : can_post_more_today (loadedState st0 today now) = false
  · rw [if_pos h1] at h
    exact absurd h (by simp)
  · rw [if_neg h1] at h
    by_cases h2 : pre = true
    · rw [if_pos h2] at h
      exact absurd h (by simp)
    · rw [if_neg h2] at h
      by_cases h3 : cands.length < 3
      · rw [if_pos h3] at h
        exact absurd h (by simp)
      · rw [if_neg h3] at h
        by_cases h4 : (runPreflight st0 today now cands expired probe2).length < 3
        · rw [if_pos h4] at h
          exact absurd h (by simp)
        · rw [if_neg h4] at h
          by_cases h5 : pub = true
          · rw [if_pos h5] at h
            simp only [RunResult.posted.injEq] at h
            exact ⟨by simpa using h1, by simpa using h2, h3, h4, h5,
              h.1.symm, h.2.symm⟩
          · rw [if_neg h5] at h
            exact absurd h (by simp)

/-! ## The preflight loop never picks a seen URL -/

theorem add_if_alive_preflight (e : Nat → Bool) (a : List Char → Bool)
    (seen : List (List Char)) (st : SelSt) (u : List Char) :
    ∀ x ∈ (add_if_alive e a seen st u).preflight,
      x ∈ st.preflight ∨ x ∉ seen := by
  intro x hx
  unfold add_if_alive at hx
  by_cases h1 : e st.tick = true
  · rw [if_pos h1] at hx
    exact Or.inl hx
  · rw [if_neg h1] at hx
    by_cases h2 : normalize_url u ∈ st.tested ∨ normalize_url u ∈ seen ∨
        normalize_url u ∈ st.preflight
    · rw [if_pos h2] at hx
      exact Or.inl hx
    · rw [if_neg h2] at hx
      by_cases h3 : a (normalize_url u) = true
      · rw [if_pos h3] at hx
        simp only [List.mem_append, List.mem_singleton] at hx
        rcases hx with hx | hx
        · exact Or.inl hx
        · subst hx
          exact Or.inr (fun hc => h2 (Or.inr (Or.inl hc)))
      · rw [if_neg h3] at hx
        exact Or.inl hx

theorem selectLoop_preflight_inv (e : Nat → Bool) (a : List Char → Bool)
    (seen : List (List Char)) (t : Nat) :
    ∀ (l : List (List Char)) (st : SelSt),
      (∀ x ∈ st.preflight, x ∉ seen) →
      ∀ x ∈ (selectLoop e a seen t l st).preflight, x ∉ seen := by
  intro l
  induction l with
  | nil =>
    intro st hst
    simpa [selectLoop] using hst
  | cons u us ih =>
    intro st hst x hx
    unfold selectLoop at hx
    by_cases hlen : t ≤ st.preflight.length
    · rw [if_pos hlen] at hx
      exact hst x hx
    · rw [if_neg hlen] at hx
      refine ih (add_if_alive e a seen st u) ?_ x hx
      intro y hy
      rcases add_if_alive_preflight e a seen st u y hy with h | h
      · exact hst y h
      · exact h

/-- Claim C1: for every persisted state and every candidate list, a
candidate whose normalized form is in the seen set built from the loaded
(purged, rolled-over) state — the normalized posted-URL set plus the
normalized purged 24-hour window — never appears in the batch handed to
the publisher. -/
theorem normalized_seen_never_in_batch (st0 : BotState) (today : List Char)
    (now : Int) (pre : Bool) (cands : List (List Char)) (expired : Nat → Bool)
    (probe2 : List Char → Nat → Probe) (pub : Bool) (s : BotState)
    (batch : List (List Char))
    (h : mainRun st0 today now pre cands expired probe2 pub =
      RunResult.posted s batch) :
    (∀ n ∈ batch, n ∉ build_seen_set_from_state (loadedState st0 today now)) ∧
    (∀ c : List Char,
      normalize_url c ∈ build_seen_set_from_state (loadedState st0 today now) →
      normalize_url c ∉ batch) := by
  obtain ⟨-, -, -, -, -, -, hbatch⟩ :=
    mainRun_posted_inv st0 today now pre cands expired probe2 pub s batch h
  subst hbatch
  have hmain : ∀ n ∈ runPreflight st0 today now cands expired probe2,
      n ∉ build_seen_set_from_state (loadedState st0 today now) := by
    intro n hn
    unfold runPreflight at hn
    exact selectLoop_preflight_inv expired (alive_retry_oracle probe2)
      (build_seen_set_from_state (loadedState st0 today now)) 3 cands
      ⟨[], [], 0⟩ (by simp) n hn
  exact ⟨hmain, fun c hc hmem => hmain (normalize_url c) hmem hc⟩

theorem normalized_seen_never_in_batch_witness :
    ("https://gofile.io/d/AAA".data) ∉ build_seen_set_from_state
      (loadedState ⟨[], none, 0, [], 800⟩ ("2026-01-01".data) 0) :=
  (normalized_seen_never_in_batch ⟨[], none, 0, [], 800⟩ ("2026-01-01".data) 0
    false
    ["https://gofile.io/d/AAA".data, "https://gofile.io/d/BBB".data,
     "https://gofile.io/d/CCC".data]
    (fun _ => false) (fun _ _ => ⟨none, none⟩) true
    ⟨["https://gofile.io/d/AAA".data, "https://gofile.io/d/BBB".data,
      "https://gofile.io/d/CCC".data],
     some ("2026-01-01".data), 1,
     [⟨"https://gofile.io/d/AAA".data, some 0⟩,
      ⟨"https://gofile.io/d/BBB".data, some 0⟩,
      ⟨"https://gofile.io/d/CCC".data, some 0⟩], 803⟩
    ["https://gofile.io/d/AAA".data, "https://gofile.io/d/BBB".data,
     "https://gofile.io/d/CCC".data]
    (by decide)).1 ("https://gofile.io/d/AAA".data) (by decide)

/-- Claim C2: the rollover check zeroes the counter and stores today's
date whenever the stored date differs; posting is allowed iff the counter
is below the fixed limit 3; after three successful commits on one local
date the gate refuses regardless of candidates, and on the next date it
allows again with the counter reset to 0. -/
theorem daily_quota_rollover (st : BotState) (d d' : List Char) (n1 n2 n3 : Int)
    (hnew : st.last_post_date ≠ some d) (hdd : d' ≠ d) :
    (reset_if_new_day st d).posts_today = 0 ∧
    (reset_if_new_day st d).last_post_date = some d ∧
    (∀ s : BotState, s.last_post_date = some d → reset_if_new_day s d = s) ∧
    (∀ s : BotState, can_post_more_today s = true ↔ s.posts_today < 3) ∧
    (∀ b1 b2 b3 : List (List Char),
      can_post_more_today
        (runCommitDay (runCommitDay (runCommitDay st d b1 n1) d b2 n2) d b3 n3) =
        false ∧
      (reset_if_new_day
        (runCommitDay (runCommitDay (runCommitDay st d b1 n1) d b2 n2) d b3 n3)
        d').posts_today = 0 ∧
      can_post_more_today
        (reset_if_new_day
          (runCommitDay (runCommitDay (runCommitDay st d b1 n1) d b2 n2) d b3 n3)
          d') = true) := by
  have hreset0 : (reset_if_new_day st d).posts_today = 0 := by
    unfold reset_if_new_day
    rw [if_neg hnew]
  have hresetd : (reset_if_new_day st d).last_post_date = some d := by
    unfold reset_if_new_day
    rw [if_neg hnew]
  have hid : ∀ s : BotState, s.last_post_date = some d → reset_if_new_day s d = s := by
    intro s hs
    unfold reset_if_new_day
    rw [if_pos hs]
  have hiff : ∀ s : BotState, can_post_more_today s = true ↔ s.posts_today < 3 := by
    intro s
    simp [can_post_more_today, DAILY_LIMIT]
  refine ⟨hreset0, hresetd, hid, hiff, ?_⟩
  intro b1 b2 b3
  have hstep : ∀ (s : BotState) (b : List (List Char)) (n : Int),
      (runCommitDay s d b n).posts_today = (reset_if_new_day s d).posts_today + 1 :=
    fun s b n => (commit_success_fields (reset_if_new_day s d) b n).1
  have hstepd : ∀ (s : BotState) (b : List (List Char)) (n : Int),
      (runCommitDay s d b n).last_post_date = (reset_if_new_day s d).last_post_date :=
    fun s b n => (commit_success_fields (reset_if_new_day s d) b n).2.1
  have h1p : (runCommitDay st d b1 n1).posts_today = 1 := by
    rw [hstep, hreset0]
  have h1d : (runCommitDay st d b1 n1).last_post_date = some d := by
    rw [hstepd, hresetd]
  have h2p : (runCommitDay (runCommitDay st d b1 n1) d b2 n2).posts_today = 2 := by
    rw [hstep, hid _ h1d, h1p]
  have h2d : (runCommitDay (runCommitDay st d b1 n1) d b2 n2).last_post_date =
      some d := by
    rw [hstepd, hid _ h1d, h1d]
  have h3p : (runCommitDay (runCommitDay (runCommitDay st d b1 n1) d b2 n2) d
      b3 n3).posts_today = 3 := by
    rw [hstep, hid _ h2d, h2p]
  have h3d : (runCommitDay (runCommitDay (runCommitDay st d b1 n1) d b2 n2) d
      b3 n3).last_post_date = some d := by
    rw [hstepd, hid _ h2d, h2d]
  have hnext : reset_if_new_day
      (runCommitDay (runCommitDay (runCommitDay st d b1 n1) d b2 n2) d b3 n3) d' =
      { runCommitDay (runCommitDay (runCommitDay st d b1 n1) d b2 n2) d b3 n3 with
        last_post_date := some d', posts_today := 0 } := by
    unfold reset_if_new_day
    rw [if_neg (by rw [h3d]; exact fun hq => hdd (Option.some.inj hq).symm)]
  refine ⟨?_, ?_, ?_⟩
  · simp [can_post_more_today, DAILY_LIMIT, h3p]
  · rw [hnext]
  · rw [hnext]
    simp [can_post_more_today, DAILY_LIMIT]

theorem daily_quota_rollover_witness :
    can_post_more_today
      (runCommitDay
        (runCommitDay (runCommitDay ⟨[], none, 0, [], 800⟩ ("2026-01-01".data)
          [] 0) ("2026-01-01".data) [] 0) ("2026-01-01".data) [] 0) = false :=
  ((daily_quota_rollover ⟨[], none, 0, [], 800⟩ ("2026-01-01".data)
    ("2026-01-02".data) 0 0 0 (by decide) (by decide)).2.2.2.2 [] [] []).1

/-- Claim C3: a probe that times out, returns a 503, or returns a 200 body
free of the fatal phrases is classified alive; a 404-class (404/410/451)
HEAD status is dead; a body whose first kilobytes contain a removal phrase
(case-insensitive substring) is dead. -/
theorem liveness_default_alive_policy (u b bad : List Char) (c : Nat)
    (g : Option (List Char))
    (hb : body_marks_dead b = false)
    (hbad : body_marks_dead bad = true)
    (hc : c = 404 ∨ c = 410 ∨ c = 451) :
    is_gofile_alive (fun _ => ⟨none, none⟩) u = true ∧
    is_gofile_alive (fun _ => ⟨some 503, some b⟩) u = true ∧
    is_gofile_alive (fun _ => ⟨some 200, some b⟩) u = true ∧
    is_gofile_alive (fun _ => ⟨some c, g⟩) u = false ∧
    is_gofile_alive (fun _ => ⟨some 200, some bad⟩) u = false := by
  refine ⟨rfl, ?_, ?_, ?_, ?_⟩
  · simp [is_gofile_alive, gofileGetVerdict, hb]
  · simp [is_gofile_alive, gofileGetVerdict, hb]
  · rcases hc with h | h | h <;> subst h <;> rfl
  · simp [is_gofile_alive, gofileGetVerdict, hbad]

theorem liveness_default_alive_policy_witness :
    is_gofile_alive (fun _ => ⟨none, none⟩) ("https://gofile.io/d/Z".data) = true ∧
    is_gofile_alive (fun _ => ⟨some 503, some ("ok".data)⟩)
      ("https://gofile.io/d/Z".data) = true ∧
    is_gofile_alive (fun _ => ⟨some 200, some ("ok".data)⟩)
      ("https://gofile.io/d/Z".data) = true ∧
    is_gofile_alive (fun _ => ⟨some 404, none⟩)
      ("https://gofile.io/d/Z".data) = false ∧
    is_gofile_alive (fun _ => ⟨some 200,
      some ("has been deleted by the owner".data)⟩)
      ("https://gofile.io/d/Z".data) = false :=
  liveness_default_alive_policy ("https://gofile.io/d/Z".data) ("ok".data)
    ("has been deleted by the owner".data) 404 none (by decide) (by decide)
    (Or.inl rfl)

/-- Claim C4: batch lines are numbered `N, N+1, N+2` in batch order, the
counter advances by exactly 3 on a successful commit (so the next batch
starts at `N+3` and two commits end at `N+6`), and a raised publish call
leaves the counter un-advanced. -/
theorem sequence_counter_advance (st : BotState) (u1 u2 u3 v1 v2 v3 : List Char)
    (n1 n2 : Int) :
    (compose_fixed3_lines [u1, u2, u3] st.line_seq).1 =
      [(st.line_seq, u1), (st.line_seq + 1, u2), (st.line_seq + 2, u3)] ∧
    (commit_success st [u1, u2, u3] n1).line_seq = st.line_seq + 3 ∧
    (compose_fixed3_lines [v1, v2, v3]
        (commit_success st [u1, u2, u3] n1).line_seq).1 =
      [(st.line_seq + 3, v1), (st.line_seq + 4, v2), (st.line_seq + 5, v3)] ∧
    (commit_success (commit_success st [u1, u2, u3] n1) [v1, v2, v3] n2).line_seq =
      st.line_seq + 6 ∧
    (∀ (st0 : BotState) (today : List Char) (now : Int)
      (cands : List (List Char)) (expired : Nat → Bool)
      (probe2 : List Char → Nat → Probe) (s : BotState)
      (batch : List (List Char)),
      mainRun st0 today now false cands expired probe2 true =
        RunResult.posted s batch →
      s.line_seq = st0.line_seq + 3 ∧
      mainRun st0 today now false cands expired probe2 false =
        RunResult.publishFailed (loadedState st0 today now) ∧
      (loadedState st0 today now).line_seq = st0.line_seq) := by
  have hseq := (commit_success_fields st [u1, u2, u3] n1).2.2
  refine ⟨?_, hseq, ?_, ?_, ?_⟩
  · simp [compose_fixed3_lines, composeLoop]
  · rw [hseq]
    simp [compose_fixed3_lines, composeLoop]
  · rw [(commit_success_fields _ [v1, v2, v3] n2).2.2, hseq]
  · intro st0 today now cands expired probe2 s batch h
    obtain ⟨hcp, -, h3, h4, -, hs, -⟩ :=
      mainRun_posted_inv st0 today now false cands expired probe2 true s batch h
    refine ⟨?_, ?_, (loadedState_fields st0 today now).2.1⟩
    · rw [hs, (commit_success_fields _ _ now).2.2,
        (loadedState_fields st0 today now).2.1]
    · unfold mainRun
      rw [if_neg (by simp [hcp]), if_neg (by simp), if_neg h3, if_neg h4,
        if_neg (by simp)]

theorem sequence_counter_advance_witness :
    (commit_success ⟨[], none, 0, [], 800⟩
      ["a".data, "b".data, "c".data] 0).line_seq = 803 :=
  (sequence_counter_advance ⟨[], none, 0, [], 800⟩ ("a".data) ("b".data)
    ("c".data) ("d".data) ("e".data) ("f".data) 0 0).2.1

/-- Claim C5: when fewer than three fresh live candidates can be assembled
(candidate list or deadline exhausted first), the run aborts without
committing: what is saved is exactly the loaded state after purge and
rollover — posted URLs, sequence counter and (up to rollover) the daily
counter keep their values, and only the purge touched the recent window. -/
theorem insufficient_batch_aborts_without_commit (st0 : BotState)
    (today : List Char) (now : Int) (cands : List (List Char))
    (expired : Nat → Bool) (probe2 : List Char → Nat → Probe) (pub : Bool)
    (hcan : can_post_more_today (loadedState st0 today now) = true)
    (hshort : cands.length < 3 ∨
      (runPreflight st0 today now cands expired probe2).length < 3) :
    (mainRun st0 today now false cands expired probe2 pub =
        RunResult.insufficientCandidates (loadedState st0 today now) ∨
      mainRun st0 today now false cands expired probe2 pub =
        RunResult.insufficientPreflight (loadedState st0 today now)) ∧
    (loadedState st0 today now).posted_urls = st0.posted_urls ∧
    (loadedState st0 today now).line_seq = st0.line_seq ∧
    ((loadedState st0 today now).posts_today = st0.posts_today ∨
      (loadedState st0 today now).posts_today = 0) ∧
    (loadedState st0 today now).recent_urls_24h =
      (purge_recent_24h st0 now).recent_urls_24h := by
  have hfr := loadedState_fields st0 today now
  refine ⟨?_, hfr.1, hfr.2.1, hfr.2.2, ?_⟩
  · unfold mainRun
    rw [if_neg (by simp [hcan]), if_neg (by simp)]
    by_cases h3 : cands.length < 3
    · rw [if_pos h3]
      exact Or.inl rfl
    · rw [if_neg h3]
      have h4 : (runPreflight st0 today now cands expired probe2).length < 3 := by
        rcases hshort with h | h
        · exact absurd h h3
        · exact h
      rw [if_pos h4]
      exact Or.inr rfl
  · unfold loadedState reset_if_new_day
    split <;> rfl

theorem insufficient_batch_aborts_without_commit_witness :
    mainRun ⟨[], none, 0, [], 800⟩ ("2026-01-01".data) 0 false
        ["https://gofile.io/d/AAA".data] (fun _ => false)
        (fun _ _ => ⟨none, none⟩) true =
      RunResult.insufficientCandidates
        (loadedState ⟨[], none, 0, [], 800⟩ ("2026-01-01".data) 0) ∨
    mainRun ⟨[], none, 0, [], 800⟩ ("2026-01-01".data) 0 false
        ["https://gofile.io/d/AAA".data] (fun _ => false)
        (fun _ _ => ⟨none, none⟩) true =
      RunResult.insufficientPreflight
        (loadedState ⟨[], none, 0, [], 800⟩ ("2026-01-01".data) 0) :=
  (insufficient_batch_aborts_without_commit ⟨[], none, 0, [], 800⟩
    ("2026-01-01".data) 0 ["https://gofile.io/d/AAA".data] (fun _ => false)
    (fun _ _ => ⟨none, none⟩) true (by decide) (Or.inl (by decide))).1

/-- Claim C7 counterexample: the claim says that when the retries are
exhausted without an alive verdict the wrapper returns the default alive
verdict; in fact, with both probes returning a confirmed-dead outcome
(HEAD 404), `is_alive_retry` with `retries = 1` returns `false`. -/
theorem retry_exhaustion_returns_dead_cex :
    (is_alive_retry
      (fun _ => is_gofile_alive (fun _ => ⟨some 404, none⟩)
        ("https://gofile.io/d/X".data)) 1).1 = false := rfl

/-- Claim C7 (amended): the wrapper performs at most one retry — at most
two probes total (the fixed 0.5 s inter-attempt delay is not observable in
this model) — and its verdict is alive iff one of the two probes reports
alive; when both report dead it returns the dead verdict, the default-alive
policy living inside each probe. -/
theorem retry_policy_two_probes (p : Nat → Bool) :
    (is_alive_retry p 1).2 ≤ 2 ∧
    (is_alive_retry p 1).1 = (p 0 || p 1) := by
  have hrepr : is_alive_retry p 1 =
      if p 0 = true then (true, 1)
      else if p 1 = true then (true, 2) else (false, 2) := rfl
  cases h0 : p 0 <;> cases h1 : p 1 <;> simp [hrepr, h0, h1]

/-! ## Normalizer lemmas -/

theorem bool_eq_false {b : Bool} (h : ¬ b = true) : b = false := by
  cases b
  · rfl
  · exact absurd rfl h

theorem listIsEmpty_iff (l : List Char) : l.isEmpty = true ↔ l = [] := by
  cases l <;> simp

theorem dropWhile_eq_self_of_none {p : Char → Bool} :
    ∀ l : List Char, (∀ c ∈ l, p c = false) → l.dropWhile p = l := by
  intro l h
  cases l with
  | nil => rfl
  | cons a as =>
    rw [List.dropWhile_cons, h a (List.mem_cons_self a as)]
    simp

theorem pyStrip_eq_self {l : List Char} (h : ∀ c ∈ l, isPySpace c = false) :
    pyStrip l = l := by
  unfold pyStrip
  rw [dropWhile_eq_self_of_none l h,
    dropWhile_eq_self_of_none l.reverse (fun c hc => h c (List.mem_reverse.mp hc)),
    List.reverse_reverse]

theorem mem_of_mem_rstripSlash {x : Char} {l : List Char}
    (h : x ∈ rstripSlash l) : x ∈ l := by
  unfold rstripSlash at h
  rw [List.mem_reverse] at h
  exact List.mem_reverse.mp ((List.dropWhile_sublist slashChar).subset h)

theorem rstripSlash_isPrefix (l : List Char) : rstripSlash l <+: l := by
  have h : l.reverse.dropWhile slashChar <:+ l.reverse :=
    List.dropWhile_suffix slashChar
  have h2 := List.reverse_prefix.mpr h
  rw [List.reverse_reverse] at h2
  exact h2

theorem ciPrefix_mono :
    ∀ (p n x : List Char), n <+: x → ciPrefix p n = true → ciPrefix p x = true := by
  intro p
  induction p with
  | nil =>
    intro n x _ _
    rfl
  | cons a ps ih =>
    intro n x hpre hci
    cases n with
    | nil => simp [ciPrefix] at hci
    | cons c cs =>
      obtain ⟨t, ht⟩ := hpre
      subst ht
      simp only [List.cons_append]
      simp only [ciPrefix, Bool.and_eq_true] at hci ⊢
      exact ⟨hci.1, ih cs (cs ++ t) ⟨t, rfl⟩ hci.2⟩

theorem ciPrefix_httpsPre_append (r : List Char) :
    ciPrefix httpPat (httpsPre ++ r) = false := rfl

theorem dropWhile_twice (p : Char → Bool) :
    ∀ l : List Char, (l.dropWhile p).dropWhile p = l.dropWhile p := by
  intro l
  induction l with
  | nil => rfl
  | cons a as ih =>
    rw [List.dropWhile_cons]
    by_cases h : p a = true
    · rw [if_pos h]
      exact ih
    · rw [if_neg h, List.dropWhile_cons, if_neg h]

theorem rstripSlash_idem (l : List Char) :
    rstripSlash (rstripSlash l) = rstripSlash l := by
  unfold rstripSlash
  rw [List.reverse_reverse, dropWhile_twice]

theorem mem_upgradeHttp {x : Char} {l : List Char} (h : x ∈ upgradeHttp l) :
    x ∈ l ∨ x ∈ httpsPre := by
  unfold upgradeHttp at h
  by_cases hc : ciPrefix httpPat l = true
  · rw [if_pos hc] at h
    rcases List.mem_append.mp h with h | h
    · exact Or.inr h
    · exact Or.inl (List.mem_of_mem_drop h)
  · rw [if_neg hc] at h
    exact Or.inl h

theorem upgradeHttp_eq_self {x : List Char} (h : ciPrefix httpPat x = false) :
    upgradeHttp x = x := by
  unfold upgradeHttp
  rw [h]
  simp

theorem normalize_url_eq_of_nonempty {x : List Char} (hx : x.isEmpty = false) :
    normalize_url x = rstripSlash (upgradeHttp (pyStrip x)) := by
  unfold normalize_url
  rw [hx]
  simp

theorem normalize_spacefree_chars {l : List Char}
    (h : ∀ c ∈ l, isPySpace c = false) :
    ∀ c ∈ normalize_url l, isPySpace c = false := by
  intro c hc
  unfold normalize_url at hc
  by_cases he : l.isEmpty = true
  · rw [if_pos he] at hc
    exact h c hc
  · rw [if_neg he] at hc
    rw [pyStrip_eq_self h] at hc
    rcases mem_upgradeHttp (mem_of_mem_rstripSlash hc) with h1 | h1
    · exact h c h1
    · have hh : ∀ c ∈ httpsPre, isPySpace c = false := by decide
      exact hh c h1

theorem ciPrefix_rstrip_false {l : List Char} (h : ciPrefix httpPat l = false) :
    ciPrefix httpPat (rstripSlash l) = false := by
  cases hb : ciPrefix httpPat (rstripSlash l) with
  | false => rfl
  | true =>
    have := ciPrefix_mono httpPat (rstripSlash l) l (rstripSlash_isPrefix l) hb
    rw [h] at this
    exact this.symm

theorem normalize_idem_spacefree_aux (l : List Char)
    (h : ∀ c ∈ l, isPySpace c = false) :
    normalize_url (normalize_url l) = normalize_url l := by
  by_cases he : l.isEmpty = true
  · rw [(listIsEmpty_iff l).mp he]
    rfl
  · have hn : normalize_url l = rstripSlash (upgradeHttp l) := by
      rw [normalize_url_eq_of_nonempty (bool_eq_false he), pyStrip_eq_self h]
    have hnchars : ∀ c ∈ normalize_url l, isPySpace c = false :=
      normalize_spacefree_chars h
    by_cases hne : (normalize_url l).isEmpty = true
    · have h0 : normalize_url l = [] := (listIsEmpty_iff _).mp hne
      rw [h0]
      rfl
    · have hci : ciPrefix httpPat (normalize_url l) = false := by
        rw [hn]
        by_cases hcl : ciPrefix httpPat l = true
        · rw [upgradeHttp, if_pos hcl]
          cases hb : ciPrefix httpPat (rstripSlash (httpsPre ++ l.drop 7)) with
          | false => rfl
          | true =>
            have hmono := ciPrefix_mono httpPat _ _
              (rstripSlash_isPrefix (httpsPre ++ l.drop 7)) hb
            rw [ciPrefix_httpsPre_append] at hmono
            exact hmono.symm
        · rw [upgradeHttp_eq_self (bool_eq_false hcl)]
          exact ciPrefix_rstrip_false (bool_eq_false hcl)
      rw [normalize_url_eq_of_nonempty (bool_eq_false hne),
        pyStrip_eq_self hnchars, upgradeHttp_eq_self hci, hn, rstripSlash_idem]

/-! ## `stripAllSlash` agrees with the code's `rstrip("/")` -/

theorem stripAllSlashFuel_succ (m : Nat) (x : List Char) :
    stripAllSlashFuel (m + 1) x =
      if x.getLast? = some '/' then stripAllSlashFuel m x.dropLast else x := rfl

theorem stripAllSlashFuel_reverse (r : List Char) :
    ∀ n : Nat, r.length ≤ n →
      stripAllSlashFuel n r.reverse = (r.dropWhile slashChar).reverse := by
  induction r with
  | nil =>
    intro n _
    cases n with
    | zero => rfl
    | succ m => rfl
  | cons c cs ih =>
    intro n hn
    cases n with
    | zero => simp at hn
    | succ m =>
      have hrev : (c :: cs).reverse = cs.reverse ++ [c] := by
        simp [List.reverse_cons]
      rw [hrev, stripAllSlashFuel_succ]
      have hgl : (cs.reverse ++ [c]).getLast? = some c := List.getLast?_concat _
      by_cases hc : c = '/'
      · subst hc
        rw [if_pos hgl, List.dropLast_concat,
          ih m (Nat.le_of_succ_le_succ (by simpa using hn)), List.dropWhile_cons]
        simp [slashChar]
      · rw [if_neg (by rw [hgl]; simp [hc]), List.dropWhile_cons]
        have hsc : slashChar c = false := by
          unfold slashChar
          exact beq_eq_false_iff_ne.mpr hc
        simp [hsc, List.reverse_cons]

theorem stripAllSlash_eq_rstripSlash (l : List Char) :
    stripAllSlash l = rstripSlash l := by
  have h := stripAllSlashFuel_reverse l.reverse l.reverse.length (Nat.le_refl _)
  rw [List.reverse_reverse, List.length_reverse] at h
  unfold stripAllSlash rstripSlash
  exact h

/-- Claim C8 counterexample: on `"https://x//"` the code's normalizer
strips BOTH trailing separators, while the claimed strip-exactly-one
normalizer leaves one; the claim's description of the canonical form is
therefore false. -/
theorem normalize_strips_all_slashes_cex :
    normalize_url ("https://x//".data) = "https://x".data ∧
    normalize_spec_one ("https://x//".data) = "https://x/".data ∧
    normalize_url ("https://x//".data) ≠ normalize_spec_one ("https://x//".data) :=
  ⟨by decide, by decide, by decide⟩

/-- Claim C8 (amended): `normalize_url` produces the canonical form by
trimming whitespace, upgrading a plain `http://` scheme to `https://`, and
stripping ALL trailing path separators; `None` and empty input are no-op
passthroughs (the function is total, so it never raises). -/
theorem normalize_canonical_form (l : List Char) :
    normalize_url l = stripAllSlash (upgradeHttp (pyStrip l)) ∧
    normalize_url_opt none = none ∧
    normalize_url [] = [] := by
  refine ⟨?_, rfl, rfl⟩
  by_cases he : l.isEmpty = true
  · rw [(listIsEmpty_iff l).mp he]
    rfl
  · rw [normalize_url_eq_of_nonempty (bool_eq_false he),
      stripAllSlash_eq_rstripSlash]

/-- Claim C9 counterexample: `normalize_url` is not idempotent on all
strings — on `"a /"` the first pass exposes a trailing space
(`"a "`), which only a second pass removes. -/
theorem normalize_not_idempotent_cex :
    normalize_url (normalize_url ("a /".data)) ≠ normalize_url ("a /".data) := by
  decide

/-- Claim C9 (amended): `normalize_url` is idempotent on every string that
contains no whitespace characters (so stripping trailing slashes can never
expose new trailing whitespace); the claim's concrete example holds. -/
theorem normalize_idempotent_spacefree (l : List Char)
    (h : ∀ c ∈ l, isPySpace c = false) :
    normalize_url (normalize_url l) = normalize_url l ∧
    normalize_url ("http://x/d/ABC/".data) = "https://x/d/ABC".data :=
  ⟨normalize_idem_spacefree_aux l h, by decide⟩

theorem normalize_idempotent_spacefree_witness :
    normalize_url (normalize_url ("http://x/d/ABC//".data)) =
      normalize_url ("http://x/d/ABC//".data) :=
  (normalize_idempotent_spacefree ("http://x/d/ABC//".data) (by decide)).1

/-! ## Strategies under an already-elapsed deadline

With the monotonic clock already past the deadline when a strategy starts,
every `_deadline_passed` check answers `true`: the oracle hypothesis is
`∀ j, dl j = true`. -/

theorem sitemapLoop_deadline (net : List Char → Option (List Char))
    (extractLocs : List Char → List (List Char)) (cap : Nat) (dl : Nat → Bool)
    (hdl : ∀ j, dl j = true) (l urls : List (List Char)) (c : Nat)
    (log : List NetReq) (k : Nat) :
    (sitemapLoop net extractLocs cap dl l urls c log k).1 = urls ∧
    (sitemapLoop net extractLocs cap dl l urls c log k).2.1 = log := by
  cases l with
  | nil => exact ⟨rfl, rfl⟩
  | cons sm rest => simp [sitemapLoop, hdl]

theorem fetch_sitemap_body_deadline (net : List Char → Option (List Char))
    (extractLocs : List Char → List (List Char)) (max_pages : Nat)
    (dl : Nat → Bool) (xml : List Char) (log : List NetReq) (k : Nat)
    (hdl : ∀ j, dl j = true) :
    (fetch_sitemap_body net extractLocs max_pages dl xml log k).1 = [] ∧
    (fetch_sitemap_body net extractLocs max_pages dl xml log k).2.1 = log := by
  simp only [fetch_sitemap_body]
  by_cases hl : (extractLocs xml).isEmpty = true
  · rw [if_pos hl]
    exact ⟨rfl, rfl⟩
  · rw [if_neg hl]
    exact sitemapLoop_deadline net extractLocs (max_pages * 20) dl hdl _ [] 0 log k

theorem fetch_sitemap_deadline (net : List Char → Option (List Char))
    (extractLocs : List Char → List (List Char)) (max_pages : Nat)
    (dl : Nat → Bool) (k : Nat) (hdl : ∀ j, dl j = true) :
    (fetch_sitemap_post_urls net extractLocs max_pages dl k).1 = [] ∧
    ((fetch_sitemap_post_urls net extractLocs max_pages dl k).2.1 =
        [NetReq.get SITEMAP_INDEX] ∨
      (fetch_sitemap_post_urls net extractLocs max_pages dl k).2.1 =
        [NetReq.get SITEMAP_INDEX, NetReq.get SITEMAP_ALT]) := by
  unfold fetch_sitemap_post_urls
  cases hidx : net SITEMAP_INDEX with
  | some xml =>
    have h := fetch_sitemap_body_deadline net extractLocs max_pages dl xml
      [NetReq.get SITEMAP_INDEX] k hdl
    exact ⟨h.1, Or.inl h.2⟩
  | none =>
    cases halt : net SITEMAP_ALT with
    | some xml =>
      have h := fetch_sitemap_body_deadline net extractLocs max_pages dl xml
        [NetReq.get SITEMAP_INDEX, NetReq.get SITEMAP_ALT] k hdl
      exact ⟨h.1, Or.inr h.2⟩
    | none => exact ⟨rfl, Or.inr rfl⟩

theorem sitemap_strategy_deadline (net : List Char → Option (List Char))
    (extractLocs extractGo : List Char → List (List Char)) (num_pages : Nat)
    (dl : Nat → Bool) (k : Nat) (hdl : ∀ j, dl j = true) :
    (collect_via_sitemap net extractLocs extractGo num_pages dl k).1 = [] ∧
    ((collect_via_sitemap net extractLocs extractGo num_pages dl k).2.1 =
        [NetReq.get SITEMAP_INDEX] ∨
      (collect_via_sitemap net extractLocs extractGo num_pages dl k).2.1 =
        [NetReq.get SITEMAP_INDEX, NetReq.get SITEMAP_ALT]) := by
  obtain ⟨h1, h2⟩ := fetch_sitemap_deadline net extractLocs num_pages dl k hdl
  simp only [collect_via_sitemap]
  rw [if_pos (show (fetch_sitemap_post_urls net extractLocs num_pages dl
      k).1.isEmpty = true by rw [h1]; rfl)]
  exact ⟨rfl, h2⟩

theorem wp_api_deadline_elapsed (netJson : Nat → Option (List (List Char)))
    (extractGo : List Char → List (List Char)) (num_pages : Nat)
    (dl : Nat → Bool) (k : Nat) (hdl : ∀ j, dl j = true) :
    (collect_via_wp_api netJson extractGo num_pages dl k).1 = [] ∧
    (collect_via_wp_api netJson extractGo num_pages dl k).2.1 = [] := by
  cases num_pages with
  | zero => exact ⟨rfl, rfl⟩
  | succ fuel => simp [collect_via_wp_api, wpLoop, hdl]

theorem pw_deadline_elapsed (pwList : Nat → Option (List Char))
    (articles : List Char → List (List Char))
    (pwNet : List Char → Option (List Char))
    (extractGo : List Char → List (List Char)) (num_pages : Nat)
    (dl : Nat → Bool) (k : Nat) (hdl : ∀ j, dl j = true) :
    (collect_via_playwright pwList articles pwNet extractGo num_pages dl k).1 = [] ∧
    (collect_via_playwright pwList articles pwNet extractGo num_pages dl k).2.1 = [] := by
  cases num_pages with
  | zero => exact ⟨rfl, rfl⟩
  | succ fuel => simp [collect_via_playwright, pwPageLoop, hdl]

/-- Claim C6 counterexample: with the deadline already elapsed before the
strategy starts (every deadline check answers true), the structured-feed
strategy still issues its sitemap-index fetch and the fallback fetch —
its request log is not empty, contradicting "without issuing any network
request". -/
theorem sitemap_requests_despite_deadline_cex :
    (collect_via_sitemap (fun _ => none) (fun _ => []) (fun _ => []) 1
        (fun _ => true) 0).2.1 =
      [NetReq.get SITEMAP_INDEX, NetReq.get SITEMAP_ALT] := by
  decide

/-- Claim C6 (amended): with the deadline already elapsed before a
strategy starts, the paged-API and rendered-crawl strategies return an
empty result immediately without issuing any network request; the
structured-feed strategy also returns an empty result and fetches no
per-sitemap or per-post resource, but it does issue the sitemap-index
fetch (one request, plus the fallback request when the first fails)
before its first deadline check. -/
theorem deadline_elapsed_strategy_behavior (net : List Char → Option (List Char))
    (extractLocs extractGo : List Char → List (List Char))
    (netJson : Nat → Option (List (List Char)))
    (pwList : Nat → Option (List Char)) (articles : List Char → List (List Char))
    (pwNet : List Char → Option (List Char)) (num_pages : Nat)
    (dl : Nat → Bool) (k : Nat) (hdl : ∀ j, dl j = true) :
    (collect_via_wp_api netJson extractGo num_pages dl k).1 = [] ∧
    (collect_via_wp_api netJson extractGo num_pages dl k).2.1 = [] ∧
    (collect_via_playwright pwList articles pwNet extractGo num_pages dl k).1 = [] ∧
    (collect_via_playwright pwList articles pwNet extractGo num_pages dl k).2.1 = [] ∧
    (collect_via_sitemap net extractLocs extractGo num_pages dl k).1 = [] ∧
    ((collect_via_sitemap net extractLocs extractGo num_pages dl k).2.1 =
        [NetReq.get SITEMAP_INDEX] ∨
      (collect_via_sitemap net extractLocs extractGo num_pages dl k).2.1 =
        [NetReq.get SITEMAP_INDEX, NetReq.get SITEMAP_ALT]) := by
  obtain ⟨hw1, hw2⟩ := wp_api_deadline_elapsed netJson extractGo num_pages dl k hdl
  obtain ⟨hp1, hp2⟩ :=
    pw_deadline_elapsed pwList articles pwNet extractGo num_pages dl k hdl
  obtain ⟨hs1, hs2⟩ :=
    sitemap_strategy_deadline net extractLocs extractGo num_pages dl k hdl
  exact ⟨hw1, hw2, hp1, hp2, hs1, hs2⟩

theorem deadline_elapsed_strategy_behavior_witness :
    (collect_via_wp_api (fun _ => none) (fun _ => []) 2 (fun _ => true) 0).1 = [] ∧
    (collect_via_wp_api (fun _ => none) (fun _ => []) 2 (fun _ => true) 0).2.1 = [] ∧
    (collect_via_playwright (fun _ => none) (fun _ => []) (fun _ => none)
      (fun _ => []) 2 (fun _ => true) 0).1 = [] ∧
    (collect_via_playwright (fun _ => none) (fun _ => []) (fun _ => none)
      (fun _ => []) 2 (fun _ => true) 0).2.1 = [] ∧
    (collect_via_sitemap (fun _ => none) (fun _ => []) (fun _ => []) 2
      (fun _ => true) 0).1 = [] ∧
    ((collect_via_sitemap (fun _ => none) (fun _ => []) (fun _ => []) 2
        (fun _ => true) 0).2.1 = [NetReq.get SITEMAP_INDEX] ∨
      (collect_via_sitemap (fun _ => none) (fun _ => []) (fun _ => []) 2
        (fun _ => true) 0).2.1 =
        [NetReq.get SITEMAP_INDEX, NetReq.get SITEMAP_ALT]) :=
  deadline_elapsed_strategy_behavior (fun _ => none) (fun _ => []) (fun _ => [])
    (fun _ => none) (fun _ => none) (fun _ => []) (fun _ => none) 2
    (fun _ => true) 0 (fun _ => rfl)

/-! ## The quick-filter loop of the collector -/

theorem collectFilterLoop_spec (np : List Char → Probe) (dl : Nat → Bool)
    (want : Nat) :
    ∀ (l uniq : List (List Char)) (k : Nat),
      ∃ ext : List (List Char),
        (collectFilterLoop np dl want l uniq k).1 = uniq ++ ext ∧
        ext.Sublist l ∧
        (∀ x ∈ ext, is_gofile_alive np x = true ∧ x ∉ uniq) ∧
        ext.Nodup ∧
        (uniq ++ ext).length ≤ max want (uniq.length + 1) := by
  intro l
  induction l with
  | nil =>
    intro uniq k
    refine ⟨[], by simp [collectFilterLoop], List.nil_sublist _, by simp,
      List.nodup_nil, by simp⟩
  | cons url rest ih =>
    intro uniq k
    by_cases hdl : dl k = true
    · exact ⟨[], by simp [collectFilterLoop, hdl], List.nil_sublist _, by simp,
        List.nodup_nil, by simp⟩
    · by_cases hmem : url ∈ uniq
      · obtain ⟨ext, h1, h2, h3, h4, h5⟩ := ih uniq (k + 1)
        exact ⟨ext, by simpa [collectFilterLoop, hdl, hmem] using h1,
          h2.cons _, h3, h4, h5⟩
      · by_cases halive : is_gofile_alive np url = true
        · have hstep : collectFilterLoop np dl want (url :: rest) uniq k =
              if want ≤ (uniq ++ [url]).length then (uniq ++ [url], k + 1)
              else collectFilterLoop np dl want rest (uniq ++ [url]) (k + 1) := by
            simp [collectFilterLoop, hdl, hmem, halive]
          by_cases hwant : want ≤ (uniq ++ [url]).length
          · refine ⟨[url], ?_,
              (List.nil_sublist rest).cons₂ url, ?_, by simp, by simp⟩
            · rw [hstep, if_pos hwant]
            · intro x hx
              rw [List.mem_singleton] at hx
              subst hx
              exact ⟨halive, hmem⟩
          · obtain ⟨ext, h1, h2, h3, h4, h5⟩ := ih (uniq ++ [url]) (k + 1)
            refine ⟨url :: ext, ?_, h2.cons₂ url, ?_, ?_, ?_⟩
            · rw [hstep, if_neg hwant, h1]
              simp
            · intro x hx
              rcases List.mem_cons.mp hx with hx | hx
              · subst hx
                exact ⟨halive, hmem⟩
              · obtain ⟨ha, hb⟩ := h3 x hx
                exact ⟨ha, fun hc => hb (List.mem_append_left _ hc)⟩
            · refine List.nodup_cons.mpr ⟨?_, h4⟩
              intro hurl
              exact (h3 url hurl).2 (List.mem_append_right _ (by simp))
            · simp only [List.length_append, List.length_cons,
                List.length_singleton] at h5 ⊢
              simp only [List.length_append, List.length_singleton] at hwant
              omega
        · obtain ⟨ext, h1, h2, h3, h4, h5⟩ := ih uniq (k + 1)
          exact ⟨ext, by simpa [collectFilterLoop, hdl, hmem, halive] using h1,
            h2.cons _, h3, h4, h5⟩

/-- Claim C10 counterexample: for `want = 0` — a value the claim
quantifies over — the quick-filter loop checks the cap only after
appending, so one concrete network outcome yields a singleton result,
more than `want` URLs. -/
theorem collect_want_zero_cex :
    collect_fresh_gofile_urls (fun _ => some ("x".data))
      (fun _ => ["https://gofilelab.com/a".data])
      (fun _ => ["https://gofile.io/d/AAA".data])
      (fun _ => none) (fun _ => none) (fun _ => []) (fun _ => none)
      (fun _ => ⟨none, none⟩) [] 0 1 (fun _ => false) =
      ["https://gofile.io/d/AAA".data] := by
  decide

/-- Claim C10 (amended): for every already-seen set and every network
outcome, `collect_fresh_gofile_urls` returns a duplicate-free list, each
element classified alive by the probe, each absent from the already-seen
set under raw string comparison, drawn in first-encountered order
exclusively from the first 60 raw collected results not in the seen set;
its length is at most `want` when `want ≥ 1` (at most `max want 1` in
general: with `want = 0` the first alive candidate is still returned,
because the cap is checked only after an append). -/
theorem collect_fresh_gofile_urls_spec (net : List Char → Option (List Char))
    (extractLocs extractGo : List Char → List (List Char))
    (netJson : Nat → Option (List (List Char)))
    (pwList : Nat → Option (List Char)) (articles : List Char → List (List Char))
    (pwNet : List Char → Option (List Char)) (netProbe : List Char → Probe)
    (already_seen : List (List Char)) (want num_pages : Nat) (dl : Nat → Bool) :
    (collect_fresh_gofile_urls net extractLocs extractGo netJson pwList articles
        pwNet netProbe already_seen want num_pages dl).Sublist
      (freshCandidates
        (fetch_listing_pages net extractLocs extractGo netJson pwList articles
          pwNet num_pages dl 0).1 already_seen) ∧
    (collect_fresh_gofile_urls net extractLocs extractGo netJson pwList articles
        pwNet netProbe already_seen want num_pages dl).Nodup ∧
    (collect_fresh_gofile_urls net extractLocs extractGo netJson pwList articles
        pwNet netProbe already_seen want num_pages dl).length ≤ max want 1 ∧
    (∀ x ∈ collect_fresh_gofile_urls net extractLocs extractGo netJson pwList
        articles pwNet netProbe already_seen want num_pages dl,
      is_gofile_alive netProbe x = true ∧ x ∉ already_seen) := by
  obtain ⟨ext, h1, h2, h3, h4, h5⟩ := collectFilterLoop_spec netProbe dl want
    (freshCandidates
      (fetch_listing_pages net extractLocs extractGo netJson pwList articles
        pwNet num_pages dl 0).1 already_seen) []
    (fetch_listing_pages net extractLocs extractGo netJson pwList articles
      pwNet num_pages dl 0).2.2
  rw [List.nil_append] at h1
  have hout : collect_fresh_gofile_urls net extractLocs extractGo netJson pwList
      articles pwNet netProbe already_seen want num_pages dl = ext := h1
  refine ⟨?_, ?_, ?_, ?_⟩
  · rw [hout]
    exact h2
  · rw [hout]
    exact h4
  · rw [hout]
    simpa using h5
  · intro x hx
    rw [hout] at hx
    refine ⟨(h3 x hx).1, ?_⟩
    have hxc := h2.subset hx
    unfold freshCandidates at hxc
    have hxf := (List.take_sublist 60 _).subset hxc
    exact of_decide_eq_true (List.mem_filter.mp hxf).2

end YamuchaBot
